import Mathlib

/-!
# EMA crossover alert system — verification development

Shallow embedding of `src/app.py` (an EMA(9,15) crossover alert poller):
the EMA calculator, the crossover detector, the per-symbol alert throttle,
the alert-dispatch step of the main loop, and the per-cycle symbol loop.
Prices and times are modelled as rationals (exact arithmetic); Python
`None` becomes `Option.none`; an uncaught Python exception becomes
`Except.error`.
-/

namespace EmaAlert

/-- `EMA_FAST = 9` from the configuration section of `app.py`. -/
def EMA_FAST : ℕ := 9

/-- `EMA_SLOW = 15` from the configuration section of `app.py`. -/
def EMA_SLOW : ℕ := 15

/-- Embedding of `calculate_ema(prices, period)` for a nonnegative period:
`None` if the list is shorter than the period, otherwise the SMA of the
first `period` prices seeded into a left fold of
`ema = (price - ema) * multiplier + ema` with `multiplier = 2/(period+1)`. -/
def calculate_ema (prices : List ℚ) (period : ℕ) : Option ℚ :=
  if prices.length < period then
    none
  else
    let multiplier : ℚ := 2 / ((period : ℚ) + 1)
    let ema : ℚ := (prices.take period).sum / (period : ℚ)
    some ((prices.drop period).foldl
      (fun ema price => (price - ema) * multiplier + ema) ema)

/-- Crossover direction as reported by `check_ema_crossover`
(the Python function returns the strings `'bullish'` / `'bearish'`). -/
inductive Crossover
  | bullish
  | bearish
  deriving DecidableEq, Repr

/-- The trailing window `prices_list[-(EMA_SLOW + 5):]` used for the
current EMAs (Python slice with negative start clamps at 0). -/
def recent_window (l : List ℚ) : List ℚ :=
  l.drop (l.length - (EMA_SLOW + 5))

/-- The shifted window `prices_list[-(EMA_SLOW + 6):-1]` used for the
previous-candle EMAs: drop the newest element, take the up-to-21 trailing
elements before it. -/
def prev_window (l : List ℚ) : List ℚ :=
  (l.take (l.length - 1)).drop (l.length - (EMA_SLOW + 6))

/-- The guarded previous-EMA computation inside `check_ema_crossover`:
`None` when the shifted window has fewer than `EMA_SLOW` elements,
otherwise `calculate_ema` over the shifted window. -/
def ema_prev_branch (l : List ℚ) (period : ℕ) : Option ℚ :=
  if (prev_window l).length < EMA_SLOW then none
  else calculate_ema (prev_window l) period

/-- The `if`/`elif` crossover classification of `check_ema_crossover`,
evaluated only when both previous EMAs are defined. -/
def classify (fp sp fc sc : ℚ) : Option Crossover :=
  if fp ≤ sp ∧ fc > sc then some Crossover.bullish
  else if fp ≥ sp ∧ fc < sc then some Crossover.bearish
  else none

/-- Embedding of `check_ema_crossover(prices_list)`: returns
`(crossover, ema_fast_current, ema_slow_current)`. -/
def check_ema_crossover (l : List ℚ) :
    Option Crossover × Option ℚ × Option ℚ :=
  if l.length < EMA_SLOW + 5 then (none, none, none)
  else
    let ema_fast_current := calculate_ema (recent_window l) EMA_FAST
    let ema_slow_current := calculate_ema (recent_window l) EMA_SLOW
    match ema_fast_current, ema_slow_current with
    | some fc, some sc =>
      let ema_fast_prev := ema_prev_branch l EMA_FAST
      let ema_slow_prev := ema_prev_branch l EMA_SLOW
      let crossover : Option Crossover :=
        match ema_fast_prev, ema_slow_prev with
        | some fp, some sp => classify fp sp fc sc
        | _, _ => none
      (crossover, some fc, some sc)
    | f, s => (none, f, s)

/-- The throttle test of the main loop:
`last_ts is None or (now - last_ts).total_seconds() > sleep_seconds`.
Times are seconds as exact rationals. -/
def throttle_allows (last_ts : Option ℚ) (now sleep_seconds : ℚ) : Bool :=
  match last_ts with
  | none => true
  | some t => decide (now - t > sleep_seconds)

/-- The throttle test as the main loop performs it against the
`last_alert_timestamp` dictionary, keyed by `api_symbol`. -/
def throttle_allows_map (m : String → Option ℚ) (api_symbol : String)
    (now sleep_seconds : ℚ) : Bool :=
  throttle_allows (m api_symbol) now sleep_seconds

/-- The alert block of the main loop (lines 250–256 of `app.py`) for one
symbol, returning that symbol's new `last_alert_timestamp` entry.
`dispatch_ok` is the value `send_email_alert` returns; the source discards
it: `send_email_alert(...)` is followed unconditionally by
`last_alert_timestamp[api_symbol] = now`. -/
def alert_step (crossover : Option Crossover) (ema_fast ema_slow : Option ℚ)
    (last_ts : Option ℚ) (now sleep_seconds : ℚ) (dispatch_ok : Bool) :
    Option ℚ :=
  match crossover, ema_fast, ema_slow with
  | some _, some _, some _ =>
    if throttle_allows last_ts now sleep_seconds then some now
    else last_ts
  | _, _, _ => last_ts

/-- A candle row `[timestamp, open, high, low, close]` built by
`fetch_twelvedata_ohlc`. -/
structure Candle where
  timestamp : ℤ
  open_price : ℚ
  high : ℚ
  low : ℚ
  close : ℚ
  deriving DecidableEq, Repr

/-- Outcome of the `fetch_twelvedata_ohlc` call for one symbol:
`raises` — `requests.get`, `raise_for_status` or `resp.json` raised
(network error, timeout, HTTP error status, invalid JSON body);
`payloadError` — the function returned `None` (missing API key, or the
provider payload has no `"values"` field);
`ok` — the oldest-to-newest candle list was returned. -/
inductive FetchOutcome
  | raises
  | payloadError
  | ok (candles : List Candle)
  deriving DecidableEq, Repr

/-- What the main loop did with one symbol in a cycle. -/
inductive SymbolOutcome
  | skipped
  | processed (result : Option Crossover × Option ℚ × Option ℚ)
  deriving DecidableEq, Repr

/-- Embedding of one iteration of the `while True` body of `main` over the
symbol list, with the i-th symbol's fetch producing `fetches[i]`.
`main` wraps the fetch in no `try`/`except`, so a raised exception
propagates out of the `for` loop (`Except.error`); a `None` result or a
short candle list prints and `continue`s; otherwise the closes are run
through `check_ema_crossover`. -/
def process_cycle (fetches : List FetchOutcome) :
    Except Unit (List SymbolOutcome) :=
  match fetches with
  | [] => Except.ok []
  | f :: rest =>
    match f with
    | FetchOutcome.raises => Except.error ()
    | FetchOutcome.payloadError =>
      (process_cycle rest).map (fun os => SymbolOutcome.skipped :: os)
    | FetchOutcome.ok candles =>
      if candles.length < EMA_SLOW + 5 then
        (process_cycle rest).map (fun os => SymbolOutcome.skipped :: os)
      else
        let closes := candles.map Candle.close
        (process_cycle rest).map
          (fun os => SymbolOutcome.processed (check_ema_crossover closes) :: os)

/-- Python slice `l[:k]` for an arbitrary integer bound `k`:
a negative bound counts from the end and clamps at 0. -/
def pySliceTo (l : List ℚ) (k : ℤ) : List ℚ :=
  if 0 ≤ k then l.take k.toNat else l.take (l.length - (-k).toNat)

/-- Python slice `l[k:]` for an arbitrary integer bound `k`:
a negative bound counts from the end and clamps at 0. -/
def pySliceFrom (l : List ℚ) (k : ℤ) : List ℚ :=
  if 0 ≤ k then l.drop k.toNat else l.drop (l.length - (-k).toNat)

/-- Embedding of `calculate_ema` for an arbitrary integer `period`,
faithful to Python semantics: `2 / (period + 1)` raises
`ZeroDivisionError` when `period = -1`, `sum(prices[:period]) / period`
raises when `period = 0`, and negative periods silently index from the
end of the list. `Except.error` marks a raised exception. -/
def calculate_ema_int (prices : List ℚ) (period : ℤ) :
    Except Unit (Option ℚ) :=
  if (prices.length : ℤ) < period then Except.ok none
  else if period + 1 = 0 then Except.error ()
  else if period = 0 then Except.error ()
  else
    let multiplier : ℚ := 2 / ((period : ℚ) + 1)
    let ema : ℚ := (pySliceTo prices period).sum / (period : ℚ)
    Except.ok (some ((pySliceFrom prices period).foldl
      (fun ema price => (price - ema) * multiplier + ema) ema))

/-- The EMA exactly as §4.1 of the design document words it, to be compared
with `calculate_ema`: seed value is the arithmetic mean of the first P
elements; for each subsequent price p in order,
`ema = (p - ema) * (2 / (P + 1)) + ema`; return the final accumulator;
"undefined" if the sequence has fewer than P elements. -/
def spec_ema (prices : List ℚ) (P : ℕ) : Option ℚ :=
  if prices.length < P then none
  else
    let seed : ℚ := (prices.take P).sum / (P : ℚ)
    some ((prices.drop P).foldl
      (fun ema p => (p - ema) * (2 / ((P : ℚ) + 1)) + ema) seed)

/-! ## Helper lemmas -/

lemma calculate_ema_isSome (l : List ℚ) (period : ℕ) (h : period ≤ l.length) :
    (calculate_ema l period).isSome := by
  rw [calculate_ema, if_neg (by omega)]
  rfl

lemma recent_window_length (l : List ℚ) (h : EMA_SLOW + 5 ≤ l.length) :
    (recent_window l).length = EMA_SLOW + 5 := by
  simp only [recent_window, List.length_drop]
  omega

lemma prev_window_length (l : List ℚ) :
    (prev_window l).length = l.length - 1 - (l.length - (EMA_SLOW + 6)) := by
  simp only [prev_window, List.length_drop, List.length_take]
  omega

lemma foldl_const (m v : ℚ) (k : ℕ) :
    List.foldl (fun ema price => (price - ema) * m + ema) v
      (List.replicate k v) = v := by
  induction k with
  | zero => rfl
  | succ n ih =>
    rw [List.replicate_succ, List.foldl_cons, sub_self, zero_mul, zero_add, ih]

lemma ema_replicate (v : ℚ) (P n : ℕ) (hP : 0 < P) (hn : P ≤ n) :
    calculate_ema (List.replicate n v) P = some v := by
  have hPQ : ((P : ℚ)) ≠ 0 := Nat.cast_ne_zero.mpr hP.ne'
  rw [calculate_ema, if_neg (by simp; omega)]
  rw [List.take_replicate, List.drop_replicate, Nat.min_eq_left hn]
  have hsum : (List.replicate P v).sum = (P : ℚ) * v := by
    simp [List.sum_replicate, nsmul_eq_mul]
  rw [hsum, mul_comm, mul_div_assoc, div_self hPQ, mul_one]
  exact congrArg some (foldl_const _ v _)

lemma check_ema_crossover_eq (l : List ℚ) (h : EMA_SLOW + 5 ≤ l.length)
    (fc sc fp sp : ℚ)
    (hfc : calculate_ema (recent_window l) EMA_FAST = some fc)
    (hsc : calculate_ema (recent_window l) EMA_SLOW = some sc)
    (hfp : ema_prev_branch l EMA_FAST = some fp)
    (hsp : ema_prev_branch l EMA_SLOW = some sp) :
    check_ema_crossover l = (classify fp sp fc sc, some fc, some sc) := by
  rw [check_ema_crossover, if_neg (by omega)]
  simp only [hfc, hsc, hfp, hsp]

lemma calculate_ema_const_fast (n : ℕ) (hn : EMA_FAST ≤ n) (v : ℚ) :
    calculate_ema (List.replicate n v) EMA_FAST = some v :=
  ema_replicate v EMA_FAST n (by norm_num [EMA_FAST]) hn

lemma calculate_ema_const_slow (n : ℕ) (hn : EMA_SLOW ≤ n) (v : ℚ) :
    calculate_ema (List.replicate n v) EMA_SLOW = some v :=
  ema_replicate v EMA_SLOW n (by norm_num [EMA_SLOW]) hn

lemma recent_window_replicate_20 (v : ℚ) :
    recent_window (List.replicate 20 v) = List.replicate 20 v := by
  simp [recent_window, EMA_SLOW]

lemma prev_window_replicate_20 (v : ℚ) :
    prev_window (List.replicate 20 v) = List.replicate 19 v := by
  simp [prev_window, EMA_SLOW, List.take_replicate]

lemma classify_of_current_eq (fp sp v : ℚ) : classify fp sp v v = none := by
  simp [classify, lt_irrefl]

lemma classify_eq_bullish (fp sp fc sc : ℚ) :
    classify fp sp fc sc = some Crossover.bullish ↔ fp ≤ sp ∧ sc < fc := by
  rw [classify]
  split_ifs with h1 h2
  · exact iff_of_true rfl ⟨h1.1, h1.2⟩
  · exact iff_of_false (by simp) fun hc => h1 ⟨hc.1, hc.2⟩
  · exact iff_of_false (by simp) fun hc => h1 ⟨hc.1, hc.2⟩

lemma classify_eq_bearish (fp sp fc sc : ℚ) :
    classify fp sp fc sc = some Crossover.bearish ↔ sp ≤ fp ∧ fc < sc := by
  rw [classify]
  split_ifs with h1 h2
  · exact iff_of_false (by simp) fun hc => absurd h1.2 (not_lt.mpr hc.2.le)
  · exact iff_of_true rfl ⟨h2.1, h2.2⟩
  · exact iff_of_false (by simp) fun hc => h2 ⟨hc.1, hc.2⟩

lemma recent_ema_replicate_20_fast (v : ℚ) :
    calculate_ema (recent_window (List.replicate 20 v)) EMA_FAST = some v := by
  rw [recent_window_replicate_20]
  exact calculate_ema_const_fast 20 (by norm_num [EMA_FAST]) v

lemma recent_ema_replicate_20_slow (v : ℚ) :
    calculate_ema (recent_window (List.replicate 20 v)) EMA_SLOW = some v := by
  rw [recent_window_replicate_20]
  exact calculate_ema_const_slow 20 (by norm_num [EMA_SLOW]) v

lemma prev_ema_replicate_20_fast (v : ℚ) :
    ema_prev_branch (List.replicate 20 v) EMA_FAST = some v := by
  rw [ema_prev_branch, prev_window_replicate_20,
    if_neg (by simp [EMA_SLOW])]
  exact calculate_ema_const_fast 19 (by norm_num [EMA_FAST]) v

lemma prev_ema_replicate_20_slow (v : ℚ) :
    ema_prev_branch (List.replicate 20 v) EMA_SLOW = some v := by
  rw [ema_prev_branch, prev_window_replicate_20,
    if_neg (by simp [EMA_SLOW])]
  exact calculate_ema_const_slow 19 (by norm_num [EMA_SLOW]) v

lemma check_ema_crossover_const (v : ℚ) :
    check_ema_crossover (List.replicate 20 v) = (none, some v, some v) := by
  rw [check_ema_crossover_eq (List.replicate 20 v) (by simp [EMA_SLOW])
    v v v v (recent_ema_replicate_20_fast v) (recent_ema_replicate_20_slow v)
    (prev_ema_replicate_20_fast v) (prev_ema_replicate_20_slow v),
    classify_of_current_eq]

/-! ## Claims -/

/-- C1: for a positive period, `calculate_ema` returns `None` when the
list has fewer than `P` elements, and otherwise the left fold
`ema = (p - ema) * (2/(P+1)) + ema` seeded with the arithmetic mean of
the first `P` elements — i.e. it coincides with the spec's description
`spec_ema`. -/
theorem calculate_ema_matches_spec (prices : List ℚ) (P : ℕ) (hP : 0 < P) :
    calculate_ema prices P = spec_ema prices P := rfl

theorem calculate_ema_matches_spec_witness :
    calculate_ema [3, 5, 7] 2 = spec_ema [3, 5, 7] 2 :=
  calculate_ema_matches_spec [3, 5, 7] 2 (by norm_num)

/-- C6: a price list with fewer than `EMA_SLOW + 5 = 20` elements makes
`check_ema_crossover` return `(None, None, None)` (no error). -/
theorem crossover_insufficient_data (l : List ℚ)
    (h : l.length < EMA_SLOW + 5) :
    check_ema_crossover l = (none, none, none) := by
  rw [check_ema_crossover, if_pos h]

theorem crossover_insufficient_data_witness :
    check_ema_crossover (List.replicate 19 (3:ℚ)) = (none, none, none) :=
  crossover_insufficient_data (List.replicate 19 3) (by simp [EMA_SLOW])

/-- C7: on a constant price sequence of value `v` and length at least the
(positive) period `P`, `calculate_ema` returns exactly `v`. -/
theorem calculate_ema_constant (v : ℚ) (P n : ℕ) (hP : 0 < P)
    (hn : P ≤ n) :
    calculate_ema (List.replicate n v) P = some v :=
  ema_replicate v P n hP hn

theorem calculate_ema_constant_witness :
    calculate_ema (List.replicate 20 (100:ℚ)) 15 = some 100 :=
  calculate_ema_constant 100 15 20 (by norm_num) (by norm_num)

/-- C8 evidence: for `period = -2` and `prices = [1, 2, 3]`,
`calculate_ema` raises no error and returns no `None`: Python's negative
slicing makes it silently compute the value `-45/2`, contradicting the
spec's requirement that `period ≤ 0` be rejected with an input error. -/
theorem calculate_ema_negative_period_silently_computes :
    calculate_ema_int [1, 2, 3] (-2) = Except.ok (some (-45/2)) := by
  norm_num [calculate_ema_int, pySliceTo, pySliceFrom, List.foldl,
    List.take, List.drop]

/-- C9: `calculate_ema` is deterministic — identical price sequences and
identical periods always produce identical results (it is a pure
function of its two arguments, reading no mutable state). -/
theorem calculate_ema_deterministic (p₁ p₂ : List ℚ) (P₁ P₂ : ℕ)
    (hp : p₁ = p₂) (hP : P₁ = P₂) :
    calculate_ema p₁ P₁ = calculate_ema p₂ P₂ := by
  rw [hp, hP]

theorem calculate_ema_deterministic_witness :
    calculate_ema [1, 2, 3] 2 = calculate_ema [1, 2, 3] 2 :=
  calculate_ema_deterministic [1, 2, 3] [1, 2, 3] 2 2 rfl rfl

/-- C3 counterexample: with a bullish crossover, both EMAs defined, no
prior alert recorded and a FAILED dispatch (`send_email_alert` returned
`False`), the main loop still sets the symbol's timestamp to `now`: the
claim that a failed dispatch leaves the timestamp unchanged is false. -/
theorem alert_step_updates_despite_failed_dispatch :
    alert_step (some Crossover.bullish) (some 1) (some 2) none 0 60 false
      = some 0 ∧ some (0:ℚ) ≠ (none : Option ℚ) := by
  exact ⟨rfl, by simp⟩

/-- C3 amended: whenever a crossover with both EMAs defined passes the
throttle gate, the main loop records `now` as the symbol's last-alert
timestamp regardless of whether the dispatch succeeded; in particular the
outcome of the dispatch never influences the new timestamp. -/
theorem alert_step_updates_whenever_gate_passes (c : Crossover)
    (f s : ℚ) (last_ts : Option ℚ) (now ss : ℚ) (ok : Bool)
    (h : throttle_allows last_ts now ss = true) :
    alert_step (some c) (some f) (some s) last_ts now ss ok = some now ∧
    alert_step (some c) (some f) (some s) last_ts now ss true =
      alert_step (some c) (some f) (some s) last_ts now ss false := by
  simp [alert_step, h]

theorem alert_step_updates_whenever_gate_passes_witness :
    alert_step (some Crossover.bearish) (some 5) (some 6) none 7 60 true
      = some 7 :=
  (alert_step_updates_whenever_gate_passes Crossover.bearish 5 6 none 7 60
    true rfl).1

/-- The 20 constant candles used to exhibit a processable symbol. -/
def demo_candles : List Candle :=
  List.replicate 20 ⟨0, 100, 100, 100, 100⟩

/-- C4 counterexample: in a two-symbol cycle whose first fetch raises
(network error, timeout, HTTP error status or invalid JSON), the uncaught
exception aborts the whole cycle, so the second symbol — which alone
would be fetched and run through the crossover detector — is never
processed. -/
theorem cycle_aborts_after_raised_fetch :
    process_cycle [FetchOutcome.raises, FetchOutcome.ok demo_candles]
      = Except.error () ∧
    process_cycle [FetchOutcome.ok demo_candles]
      = Except.ok [SymbolOutcome.processed (none, some 100, some 100)] := by
  refine ⟨rfl, ?_⟩
  have hmap : demo_candles.map Candle.close = List.replicate 20 (100:ℚ) := by
    simp [demo_candles, List.map_replicate]
  simp only [process_cycle, hmap, check_ema_crossover_const,
    if_neg (show ¬ demo_candles.length < EMA_SLOW + 5 by
      simp [demo_candles, EMA_SLOW])]
  rfl

/-- C4 amended: only a fetch failure that `fetch_twelvedata_ohlc` reports
by returning `None` (missing API key or provider error payload) is
isolated — the symbol is skipped and the remaining symbols are still
processed; a raised exception (network error, timeout, HTTP error
status, malformed JSON body) propagates out of the symbol loop and
aborts the rest of the cycle. -/
theorem cycle_isolation_characterisation (rest : List FetchOutcome) :
    process_cycle (FetchOutcome.payloadError :: rest)
      = (process_cycle rest).map (fun os => SymbolOutcome.skipped :: os) ∧
    process_cycle (FetchOutcome.raises :: rest) = Except.error () :=
  ⟨rfl, rfl⟩

/-- C5: the throttle allows exactly when no prior alert is recorded or
the elapsed time strictly exceeds the interval `I`; a check at `T + I`
after an alert recorded at `T` is disallowed, a check strictly later
(`T + I + ε`, `ε > 0`) is allowed; and the decision for a symbol depends
only on that symbol's own entry of the timestamp map. -/
theorem alert_throttle_rule (last : Option ℚ) (T now I ε : ℚ)
    (hε : 0 < ε) (m₁ m₂ : String → Option ℚ) (s : String)
    (hs : m₁ s = m₂ s) :
    (throttle_allows last now I = true ↔
      last = none ∨ ∃ t, last = some t ∧ now - t > I) ∧
    throttle_allows (some T) (T + I) I = false ∧
    throttle_allows (some T) (T + I + ε) I = true ∧
    throttle_allows_map m₁ s now I = throttle_allows_map m₂ s now I := by
  refine ⟨?_, ?_, ?_, ?_⟩
  · cases last with
    | none => simp [throttle_allows]
    | some t => simp [throttle_allows]
  · simp [throttle_allows]
  · simp [throttle_allows]
    linarith
  · simp [throttle_allows_map, hs]

theorem alert_throttle_rule_witness :
    throttle_allows (some (0:ℚ)) (0 + 60 + 1) 60 = true :=
  (alert_throttle_rule (some 0) 0 61 60 1 (by norm_num)
    (fun _ => none) (fun _ => none) "BTC/USD" rfl).2.2.1

/-- C2: on a price list with at least `EMA_SLOW + 5` elements, when the
previous fast and slow EMAs (computed by the guarded previous-window
branch over `prices[-(EMA_SLOW+6):-1]`) are both defined,
`check_ema_crossover` reports bullish exactly when previous fast ≤
previous slow and current fast > current slow, bearish exactly when
previous fast ≥ previous slow and current fast < current slow, and
equality of the current EMAs never triggers a crossover. -/
theorem crossover_classification (l : List ℚ) (h : EMA_SLOW + 5 ≤ l.length)
    (fc sc fp sp : ℚ)
    (hfc : calculate_ema (recent_window l) EMA_FAST = some fc)
    (hsc : calculate_ema (recent_window l) EMA_SLOW = some sc)
    (hfp : ema_prev_branch l EMA_FAST = some fp)
    (hsp : ema_prev_branch l EMA_SLOW = some sp) :
    ((check_ema_crossover l).1 = some Crossover.bullish ↔
      fp ≤ sp ∧ fc > sc) ∧
    ((check_ema_crossover l).1 = some Crossover.bearish ↔
      fp ≥ sp ∧ fc < sc) ∧
    (fc = sc → (check_ema_crossover l).1 = none) := by
  rw [check_ema_crossover_eq l h fc sc fp sp hfc hsc hfp hsp]
  refine ⟨classify_eq_bullish fp sp fc sc, classify_eq_bearish fp sp fc sc,
    ?_⟩
  intro he
  subst he
  exact classify_of_current_eq fp sp fc

theorem crossover_classification_witness :
    (check_ema_crossover (List.replicate 20 (100:ℚ))).1 = none :=
  (crossover_classification (List.replicate 20 100) (by simp [EMA_SLOW])
    100 100 100 100 (recent_ema_replicate_20_fast 100)
    (recent_ema_replicate_20_slow 100) (prev_ema_replicate_20_fast 100)
    (prev_ema_replicate_20_slow 100)).2.2 rfl

/-- C10: under the length precondition `EMA_SLOW + 5 ≤ |prices|`, the
shifted previous window always has at least `EMA_SLOW` elements, so the
branch leaving the previous EMAs undefined is unreachable (both guarded
previous EMAs are defined and the classification step is evaluated);
consequently a non-`None` crossover comes with both current EMA values
defined. -/
theorem crossover_prev_always_defined (l : List ℚ)
    (h : EMA_SLOW + 5 ≤ l.length) :
    EMA_SLOW ≤ (prev_window l).length ∧
    (ema_prev_branch l EMA_FAST).isSome ∧
    (ema_prev_branch l EMA_SLOW).isSome ∧
    ((check_ema_crossover l).1.isSome →
      (check_ema_crossover l).2.1.isSome ∧
      (check_ema_crossover l).2.2.isSome) := by
  have hpw : EMA_SLOW ≤ (prev_window l).length := by
    rw [prev_window_length]
    simp only [EMA_SLOW] at h ⊢
    omega
  have hbf : (ema_prev_branch l EMA_FAST).isSome := by
    rw [ema_prev_branch, if_neg (not_lt.mpr hpw)]
    exact calculate_ema_isSome _ _
      (le_trans (by norm_num [EMA_FAST, EMA_SLOW]) hpw)
  have hbs : (ema_prev_branch l EMA_SLOW).isSome := by
    rw [ema_prev_branch, if_neg (not_lt.mpr hpw)]
    exact calculate_ema_isSome _ _ hpw
  have hcf : (calculate_ema (recent_window l) EMA_FAST).isSome :=
    calculate_ema_isSome _ _
      (by rw [recent_window_length l h]; norm_num [EMA_FAST, EMA_SLOW])
  have hcs : (calculate_ema (recent_window l) EMA_SLOW).isSome :=
    calculate_ema_isSome _ _
      (by rw [recent_window_length l h]; norm_num [EMA_SLOW])
  obtain ⟨fc, hfc⟩ := Option.isSome_iff_exists.mp hcf
  obtain ⟨sc, hsc⟩ := Option.isSome_iff_exists.mp hcs
  obtain ⟨fp, hfp⟩ := Option.isSome_iff_exists.mp hbf
  obtain ⟨sp, hsp⟩ := Option.isSome_iff_exists.mp hbs
  refine ⟨hpw, by rw [hfp]; rfl, by rw [hsp]; rfl, ?_⟩
  rw [check_ema_crossover_eq l h fc sc fp sp hfc hsc hfp hsp]
  intro _
  exact ⟨rfl, rfl⟩

theorem crossover_prev_always_defined_witness :
    EMA_SLOW ≤ (prev_window (List.replicate 20 (7:ℚ))).length ∧
    (ema_prev_branch (List.replicate 20 (7:ℚ)) EMA_FAST).isSome ∧
    (ema_prev_branch (List.replicate 20 (7:ℚ)) EMA_SLOW).isSome ∧
    ((check_ema_crossover (List.replicate 20 (7:ℚ))).1.isSome →
      (check_ema_crossover (List.replicate 20 (7:ℚ))).2.1.isSome ∧
      (check_ema_crossover (List.replicate 20 (7:ℚ))).2.2.isSome) :=
  crossover_prev_always_defined (List.replicate 20 7) (by simp [EMA_SLOW])

end EmaAlert
